import Mathlib

/-!
Verification of the env-typed-checker core: the spec normalizer
(`normalizeSpec`, `coerceDefault`, `parseByType` from
`src/validators/primitives.ts`) and the validation runner
(`validateAndParse` from `src/core/runner.ts`).

JavaScript runtime values that schema declarations are made of are
embedded as the inductive `Value`.  The JS builtins that the code calls
as black boxes (`new RegExp` + `RegExp.test`, `new URL`, `JSON.parse`)
are abstracted as the record `JsRuntime`; `Number(string)` is modelled
concretely by `jsNumberOfString` because the code's behaviour on empty
and whitespace strings depends on its details.
-/

namespace EnvTypedChecker

/-- A JavaScript value, as far as the schema/env code observes them.
`num` holds a finite number (modelled as a rational; the claims only use
integral values, so float rounding is irrelevant); `nan` and `inf` are
the non-finite numbers, kept separate because `typeof` groups them with
numbers while `Number.isFinite` rejects them and their truthiness
differs. -/
inductive Value where
  | undefined
  | null
  | bool (b : Bool)
  | num (q : ℚ)
  | nan
  | inf (neg : Bool)
  | str (s : String)
  | arr (elems : List Value)
  | obj (fields : List (String × Value))

/-- Own-property lookup on an object literal (first binding wins;
JS object literals cannot repeat keys). `none` = property absent,
`some .undefined` = property present with value `undefined` — the code
distinguishes these via `Object.prototype.hasOwnProperty`. -/
def lookupField : List (String × Value) → String → Option Value
  | [], _ => none
  | (k', v) :: rest, k => if k' = k then some v else lookupField rest k

/-- Property read `(o as any).k`: absent properties read as `undefined`. -/
def getFieldD (o : List (String × Value)) (k : String) : Value :=
  (lookupField o k).getD .undefined

/-- `Object.prototype.hasOwnProperty.call(o, k)` (the `hasOwn` helper). -/
def hasField (o : List (String × Value)) (k : String) : Bool :=
  (lookupField o k).isSome

/-- JS truthiness (`!!v`). -/
def truthy : Value → Bool
  | .undefined => false
  | .null => false
  | .bool b => b
  | .num q => q != 0
  | .nan => false
  | .inf _ => true
  | .str s => s != ""
  | .arr _ => true
  | .obj _ => true

/-- `String(v)` for the scalar values that can plausibly sit in a
`type` field; composite values are approximated (`[object Object]` is
the real JS result for plain objects, array stringification is
abbreviated — no claim depends on these messages). -/
def jsToString : Value → String
  | .undefined => "undefined"
  | .null => "null"
  | .bool true => "true"
  | .bool false => "false"
  | .num q => if q.den = 1 then toString q.num else toString q
  | .nan => "NaN"
  | .inf false => "Infinity"
  | .inf true => "-Infinity"
  | .str s => s
  | .arr _ => ""
  | .obj _ => "[object Object]"

/-- The six base types (`EnvBaseType` in `src/types.ts`). -/
inductive EnvBaseType where
  | string
  | number
  | boolean
  | json
  | url
  | email
deriving DecidableEq

/-- Membership in the `allowed` / `primitiveAllowed` arrays of base type
names, returning the matched base type. -/
def baseOfString : String → Option EnvBaseType
  | "string" => some .string
  | "number" => some .number
  | "boolean" => some .boolean
  | "json" => some .json
  | "url" => some .url
  | "email" => some .email
  | _ => none

/-- Whitespace for the purposes of `String.prototype.trim` and the
whitespace class of the email regex (ASCII portion; the claims never use
exotic Unicode spaces). -/
def isJsWS (c : Char) : Bool :=
  c = ' ' || c = '\t' || c = '\n' || c = '\r' || c = '\x0b' || c = '\x0c'

/-- `String.prototype.trim`. -/
def jsTrim (s : String) : String :=
  ⟨((s.toList.dropWhile isJsWS).reverse.dropWhile isJsWS).reverse⟩

/-- Numeric value of a digit string (most significant first; code point
of `0` is 48). -/
def digitsToNat (cs : List Char) : Nat :=
  cs.foldl (fun a c => 10 * a + (c.toNat - 48)) 0

/-- Value of one digit in radix `b` (hex letters in either case), if
valid: code points 48–57 are the decimal digits, and after lowering,
97–102 are `a`–`f`. -/
def radixDigit (b : Nat) (c : Char) : Option Nat :=
  let n := c.toNat
  let m := c.toLower.toNat
  let v : Option Nat :=
    if 48 ≤ n ∧ n ≤ 57 then some (n - 48)
    else if 97 ≤ m ∧ m ≤ 102 then some (m - 87)
    else none
  v.bind (fun d => if d < b then some d else none)

/-- Radix-prefixed integer literal body (after `0x`/`0o`/`0b`). -/
def parseRadix (b : Nat) (cs : List Char) : Option ℚ :=
  match cs.mapM (radixDigit b) with
  | some ds =>
    if ds.isEmpty then none
    else some ((ds.foldl (fun a d => a * b + d) 0 : Nat) : ℚ)
  | none => none

/-- Unsigned decimal literal `digits [. digits] [e|E [+|-] digits]`.
`none` models NaN. -/
def parseDec (cs : List Char) : Option ℚ :=
  let ip := cs.takeWhile Char.isDigit
  let r1 := cs.dropWhile Char.isDigit
  let fp := match r1 with
    | '.' :: t => t.takeWhile Char.isDigit
    | _ => []
  let r2 := match r1 with
    | '.' :: t => t.dropWhile Char.isDigit
    | _ => r1
  if ip.isEmpty && fp.isEmpty then none
  else
    let mant : ℚ :=
      if fp.isEmpty then (digitsToNat ip : ℚ)
      else (digitsToNat ip : ℚ) + (digitsToNat fp : ℚ) / ((10 : ℚ) ^ fp.length)
    match r2 with
    | [] => some mant
    | e :: t =>
      if e = 'e' || e = 'E' then
        let sgn : ℤ := match t with
          | '-' :: _ => -1
          | _ => 1
        let t2 := match t with
          | '+' :: u => u
          | '-' :: u => u
          | _ => t
        let ed := t2.takeWhile Char.isDigit
        if ed.isEmpty || !(t2.dropWhile Char.isDigit).isEmpty then none
        else some (mant * (10 : ℚ) ^ (sgn * (digitsToNat ed : ℤ)))
      else none

/-- `Number(s)` on a string, restricted to the finite outcomes the code
can observe: `some q` when the result is a finite number, `none` when it
is NaN *or* ±Infinity (the code only ever asks `Number.isFinite`, which
rejects all three alike — `"Infinity"` falls into `none` here because it
is not a digit literal).  Mirrors ToNumber: trims whitespace, empty
string is `0`, `0x`/`0o`/`0b` prefixes, otherwise a signed decimal
literal.  Float overflow of astronomically long literals is not
modelled. -/
def jsNumberOfString (s : String) : Option ℚ :=
  match (jsTrim s).toList with
  | [] => some 0
  | '0' :: 'x' :: rest => parseRadix 16 rest
  | '0' :: 'X' :: rest => parseRadix 16 rest
  | '0' :: 'o' :: rest => parseRadix 8 rest
  | '0' :: 'O' :: rest => parseRadix 8 rest
  | '0' :: 'b' :: rest => parseRadix 2 rest
  | '0' :: 'B' :: rest => parseRadix 2 rest
  | '+' :: rest => parseDec rest
  | '-' :: rest => (parseDec rest).map (fun q => -q)
  | cs => parseDec cs

/-- `s.toLowerCase()` (character-wise ASCII lowering, which is all the
boolean tokens need). -/
def lowerStr (s : String) : String := ⟨s.toList.map Char.toLower⟩

/-- Split a character list at every `'@'`. -/
def splitOnAt (cs : List Char) : List (List Char) :=
  cs.foldr (fun x acc =>
    match acc with
    | [] => if x = '@' then [[], []] else [[x]]
    | h :: t => if x = '@' then [] :: h :: t else (x :: h) :: t) [[]]

/-- The anchored email regex `EMAIL_RE = /^[^\s@]+@[^\s@]+\.[^\s@]+$/`:
exactly one `@`, a non-empty whitespace-free local part, and after the
`@` a whitespace-free remainder containing some `.` with non-empty runs
on both sides. -/
def emailTest (s : String) : Bool :=
  match splitOnAt s.toList with
  | [l, r] =>
    !l.isEmpty && !r.isEmpty &&
    l.all (fun c => !isJsWS c) && r.all (fun c => !isJsWS c) &&
    ((r.drop 1).dropLast.contains '.')
  | _ => false

/-- The JS builtins the code delegates to: `new RegExp(pattern, flags)`
(which either throws — `.error` carries `String(e)` — or yields a
matcher standing for `re.test`), `new URL(raw)` success, and
`JSON.parse` (`none` = parse error). -/
structure JsRuntime where
  compile : String → Option String → Except String (String → Bool)
  urlOk : String → Bool
  jsonParse : String → Option Value

/-- `parseByType` from `src/validators/primitives.ts`. -/
def parseByType (rt : JsRuntime) (t : EnvBaseType) (raw : String) : Except String Value :=
  match t with
  | .string => .ok (.str raw)
  | .number =>
    match jsNumberOfString (jsTrim raw) with
    | some q => .ok (.num q)
    | none => .error ("expected number, got \"" ++ raw ++ "\"")
  | .boolean =>
    if ["true", "1", "yes", "y", "on"].contains (lowerStr (jsTrim raw)) then .ok (.bool true)
    else if ["false", "0", "no", "n", "off"].contains (lowerStr (jsTrim raw)) then
      .ok (.bool false)
    else .error ("expected boolean (true/false/1/0/yes/no/on/off), got \"" ++ raw ++ "\"")
  | .json =>
    match rt.jsonParse raw with
    | some v => .ok v
    | none => .error ("expected json, got \"" ++ raw ++ "\"")
  | .url =>
    if rt.urlOk raw then .ok (.str raw)
    else .error ("expected url, got \"" ++ raw ++ "\"")
  | .email =>
    if emailTest (jsTrim raw) then .ok (.str (jsTrim raw))
    else .error ("expected email, got \"" ++ raw ++ "\"")

/-- `coerceDefault`: type-check + normalize a declared default into the
right runtime value.  `.ok none` both for an absent default value
(`def === undefined`) and, at the caller, for an absent `default`
property. -/
def coerceDefault (rt : JsRuntime) (t : EnvBaseType) (d : Value) : Except String (Option Value) :=
  match d with
  | .undefined => .ok none
  | d =>
    match t with
    | .string =>
      match d with
      | .str s => .ok (some (.str s))
      | _ => .error "default for string must be a string"
    | .number =>
      match d with
      | .num q => .ok (some (.num q))
      | .nan => .error "default for number must be finite"
      | .inf _ => .error "default for number must be finite"
      | .str s => (parseByType rt .number s).map some
      | _ => .error "default for number must be number or string"
    | .boolean =>
      match d with
      | .bool b => .ok (some (.bool b))
      | .str s => (parseByType rt .boolean s).map some
      | _ => .error "default for boolean must be boolean or string"
    | .json => .ok (some d)
    | .url =>
      match d with
      | .str s => (parseByType rt .url s).map some
      | _ => .error "default for url must be a string"
    | .email =>
      match d with
      | .str s => (parseByType rt .email s).map some
      | _ => .error "default for email must be a string"

/-- The three shapes of `NormalizedSpec`'s discriminant: a primitive
kind, an enum with its values, or a regex with its compiled matcher and
display form. -/
inductive SpecKind where
  | prim (t : EnvBaseType)
  | enum (values : List String)
  | regex (re : String → Bool) (display : String)

/-- `NormalizedSpec` as produced by `normalizeSpec` in
`src/validators/primitives.ts` (this file has no metadata fields — see
the claim about metadata handling). -/
structure NormalizedSpec where
  kind : SpecKind
  optional : Bool
  defaultValue : Option Value

/-- Error message of the enum `values` shape check. -/
def enumValuesErr : String := "enum spec requires \"values\": string[] (non-empty)"

/-- `values.every(v => typeof v === "string")`, extracting the strings. -/
def allStrings : List Value → Option (List String)
  | [] => some []
  | .str s :: rest => (allStrings rest).map (fun l => s :: l)
  | _ :: _ => none

/-- Primitive object spec path of `normalizeSpec`. -/
def normalizePrim (rt : JsRuntime) (o : List (String × Value)) (bt : EnvBaseType) :
    Except String NormalizedSpec :=
  match (if hasField o "default" then coerceDefault rt bt (getFieldD o "default") else .ok none) with
  | .error e => .error e
  | .ok dflt => .ok ⟨.prim bt, truthy (getFieldD o "optional"), dflt⟩

/-- Enum spec path of `normalizeSpec` (uses no JS builtins). -/
def normalizeEnum (o : List (String × Value)) : Except String NormalizedSpec :=
  match getFieldD o "values" with
  | .arr items =>
    match allStrings items with
    | some values =>
      if values.isEmpty then .error enumValuesErr
      else
        match (if hasField o "default" then
                match getFieldD o "default" with
                | .str d =>
                  if values.contains d then .ok (some (Value.str d))
                  else .error ("default \"" ++ d ++ "\" must be one of [" ++
                    String.intercalate ", " values ++ "]")
                | _ => .error "default for enum must be a string"
              else .ok none : Except String (Option Value)) with
        | .error e => .error e
        | .ok dflt => .ok ⟨.enum values, truthy (getFieldD o "optional"), dflt⟩
    | none => .error enumValuesErr
  | _ => .error enumValuesErr

/-- Regex spec path of `normalizeSpec`. -/
def normalizeRegex (rt : JsRuntime) (o : List (String × Value)) : Except String NormalizedSpec :=
  match getFieldD o "pattern" with
  | .str p =>
    if p = "" then .error "regex spec requires \"pattern\": string"
    else
      match (match getFieldD o "flags" with
             | .undefined => .ok none
             | .str f => .ok (some f)
             | _ => .error "regex spec \"flags\" must be a string if provided" :
             Except String (Option String)) with
      | .error e => .error e
      | .ok flagsOpt =>
        match rt.compile p flagsOpt with
        | .error e => .error ("invalid regex: " ++ e)
        | .ok re =>
          match (if hasField o "default" then
                  match getFieldD o "default" with
                  | .str d =>
                    if re d then .ok (some (Value.str d))
                    else .error ("default \"" ++ d ++ "\" does not match " ++
                      ("/" ++ p ++ "/" ++ flagsOpt.getD ""))
                  | _ => .error "default for regex must be a string"
                else .ok none : Except String (Option Value)) with
          | .error e => .error e
          | .ok dflt => .ok ⟨.regex re ("/" ++ p ++ "/" ++ flagsOpt.getD ""), truthy (getFieldD o "optional"), dflt⟩
  | _ => .error "regex spec requires \"pattern\": string"

/-- `schemaValue.endsWith("?")` (type names are ASCII, so the list view
is exact). -/
def endsWithQM (s : String) : Bool := s.toList.getLast? == some '?'

/-- `schemaValue.slice(0, -1)`. -/
def dropLastChar (s : String) : String := ⟨s.toList.dropLast⟩

/-- `normalizeSpec` from `src/validators/primitives.ts`: shorthand
string → six base names with optional `?` suffix; otherwise an object
spec dispatched on its `type` field; anything else is a structural
error. -/
def normalizeSpec (rt : JsRuntime) (sv : Value) : Except String NormalizedSpec :=
  match sv with
  | .str s =>
    match baseOfString (if endsWithQM s then dropLastChar s else s) with
    | some t => .ok ⟨.prim t, endsWithQM s, none⟩
    | none =>
      .error ("Unsupported type \"" ++ s ++
        "\". Supported: string, number, boolean, json, url, email (optional with ?)")
  | .obj o =>
    match getFieldD o "type" with
    | .str ts =>
      match baseOfString ts with
      | some bt => normalizePrim rt o bt
      | none =>
        if ts = "enum" then normalizeEnum o
        else if ts = "regex" then normalizeRegex rt o
        else .error ("Unsupported object spec type \"" ++ ts ++
          "\". Supported: primitives (string/number/boolean/json/url/email), enum, regex")
    | tv =>
      .error ("Unsupported object spec type \"" ++ jsToString tv ++
        "\". Supported: primitives (string/number/boolean/json/url/email), enum, regex")
  | _ => .error "Schema value must be a string or object spec."

/-- Issue kinds of `EnvDoctorIssue`. -/
inductive IssueKind where
  | missing
  | invalid
deriving DecidableEq

/-- One reported problem, as in `src/errors/EnvDoctorError.ts`. -/
structure Issue where
  key : String
  kind : IssueKind
  message : String
deriving DecidableEq

/-- Missing-raw-value resolution inside `validateAndParse`: default
first, then optional → `undefined`, else a `missing` issue. -/
def resolveMissing (key : String) (spec : NormalizedSpec) : Except Issue (Option Value) :=
  match spec.defaultValue with
  | some v => .ok (some v)
  | none =>
    if spec.optional then .ok none
    else .error ⟨key, .missing, "missing required environment variable"⟩

/-- Present-raw-value resolution inside `validateAndParse`: enum
membership, regex match, or primitive coercion; thrown errors become
`invalid` issues. -/
def resolvePresent (rt : JsRuntime) (key : String) (spec : NormalizedSpec) (r : String) :
    Except Issue (Option Value) :=
  match spec.kind with
  | .enum values =>
    if values.contains r then .ok (some (.str r))
    else .error ⟨key, .invalid,
      "expected one of [" ++ String.intercalate ", " values ++ "], got \"" ++ r ++ "\""⟩
  | .regex re display =>
    if re r then .ok (some (.str r))
    else .error ⟨key, .invalid, "does not match " ++ display⟩
  | .prim t =>
    match parseByType rt t r with
    | .ok v => .ok (some v)
    | .error msg => .error ⟨key, .invalid, msg⟩

/-- The whole per-key step of `validateAndParse`'s loop: normalize the
declaration (failures become `invalid` issues), then resolve the raw
value, treating `undefined` and `""` alike as missing.  `.ok v` is the
entry written to the output (`.ok none` = key present as `undefined`),
`.error i` is the issue pushed. -/
def keyOutcome (rt : JsRuntime) (key : String) (decl : Value) (raw : Option String) :
    Except Issue (Option Value) :=
  match normalizeSpec rt decl with
  | .error msg => .error ⟨key, .invalid, msg⟩
  | .ok spec =>
    match raw with
    | none => resolveMissing key spec
    | some r => if r = "" then resolveMissing key spec else resolvePresent rt key spec r

/-- Loop body of `validateAndParse`: accumulate the issue or the output
entry. -/
def runStep (rt : JsRuntime) (env : String → Option String)
    (acc : List Issue × List (String × Option Value)) (kd : String × Value) :
    List Issue × List (String × Option Value) :=
  match keyOutcome rt kd.1 kd.2 (env kd.1) with
  | .error i => (acc.1 ++ [i], acc.2)
  | .ok v => (acc.1, acc.2 ++ [(kd.1, v)])

/-- `validateAndParse` from `src/core/runner.ts`: iterate the schema in
insertion order, collect all issues and outputs, and fail with the whole
issue list (the `EnvDoctorError` payload) when any issue was recorded. -/
def validateAndParse (rt : JsRuntime) (schema : List (String × Value))
    (env : String → Option String) :
    Except (List Issue) (List (String × Option Value)) :=
  let r := schema.foldl (runStep rt env) ([], [])
  if r.1 = [] then .ok r.2 else .error r.1

/-- The issues `validateAndParse` records, one per failing key, in
schema order. -/
def issuesOf (rt : JsRuntime) (schema : List (String × Value)) (env : String → Option String) :
    List Issue :=
  schema.filterMap (fun kd =>
    match keyOutcome rt kd.1 kd.2 (env kd.1) with
    | .error i => some i
    | .ok _ => none)

/-- The output entries `validateAndParse` builds, one per succeeding
key, in schema order. -/
def outputsOf (rt : JsRuntime) (schema : List (String × Value)) (env : String → Option String) :
    List (String × Option Value) :=
  schema.filterMap (fun kd =>
    match keyOutcome rt kd.1 kd.2 (env kd.1) with
    | .error _ => none
    | .ok v => some (kd.1, v))

/-- The value-level validation rule of a primitive kind: what the
runtime coercion of that kind guarantees about values it lets through. -/
def primSatisfies (rt : JsRuntime) (t : EnvBaseType) (v : Value) : Prop :=
  match t with
  | .string => ∃ s, v = .str s
  | .number => ∃ q, v = .num q
  | .boolean => ∃ b, v = .bool b
  | .json => True
  | .url => ∃ s, v = .str s ∧ rt.urlOk s = true
  | .email => ∃ s, v = .str s ∧ emailTest s = true

/-- A value satisfies a normalized spec's own validation rule. -/
def defaultSatisfies (rt : JsRuntime) (spec : NormalizedSpec) (v : Value) : Prop :=
  match spec.kind with
  | .prim t => primSatisfies rt t v
  | .enum values => ∃ s, v = .str s ∧ values.contains s = true
  | .regex re _ => ∃ s, v = .str s ∧ re s = true

/-- A concrete runtime for witnesses: the compiled matcher of a pattern
accepts exactly the pattern string itself, one URL is valid, JSON never
parses.  Any `JsRuntime` works for the theorems; this one makes the
hypotheses easy to discharge on concrete inputs. -/
def wRt : JsRuntime where
  compile := fun p _ => .ok (fun s => s == p)
  urlOk := fun s => s == "https://example.com"
  jsonParse := fun _ => none

/-! ## Helper lemmas -/

theorem foldl_runStep (rt : JsRuntime) (env : String → Option String)
    (schema : List (String × Value)) :
    ∀ acc, schema.foldl (runStep rt env) acc =
      (acc.1 ++ issuesOf rt schema env, acc.2 ++ outputsOf rt schema env) := by
  induction schema with
  | nil => intro acc; simp [issuesOf, outputsOf]
  | cons kd tl ih =>
    intro acc
    simp only [List.foldl_cons, ih]
    unfold runStep issuesOf outputsOf
    cases h : keyOutcome rt kd.1 kd.2 (env kd.1) <;>
      simp [h, List.filterMap_cons, List.append_assoc]

theorem except_map_some_ok {e : Except String Value} {v : Option Value}
    (h : e.map some = .ok v) : ∃ w, e = .ok w ∧ v = some w := by
  cases e with
  | error msg => simp [Except.map] at h
  | ok w => refine ⟨w, rfl, ?_⟩; simp [Except.map] at h; exact h.symm

theorem parse_number_shape {rt : JsRuntime} {raw : String} {v : Value}
    (h : parseByType rt .number raw = .ok v) : ∃ q, v = .num q := by
  simp only [parseByType] at h
  split at h
  · exact ⟨_, by injection h with h; exact h.symm⟩
  · exact absurd h (by simp)

theorem parse_boolean_shape {rt : JsRuntime} {raw : String} {v : Value}
    (h : parseByType rt .boolean raw = .ok v) : ∃ b, v = .bool b := by
  simp only [parseByType] at h
  split_ifs at h
  · exact ⟨true, by injection h with h; exact h.symm⟩
  · exact ⟨false, by injection h with h; exact h.symm⟩

theorem parse_url_shape {rt : JsRuntime} {raw : String} {v : Value}
    (h : parseByType rt .url raw = .ok v) : v = .str raw ∧ rt.urlOk raw = true := by
  simp only [parseByType] at h
  split_ifs at h with hc
  · exact ⟨by injection h with h; exact h.symm, hc⟩

theorem parse_email_shape {rt : JsRuntime} {raw : String} {v : Value}
    (h : parseByType rt .email raw = .ok v) :
    v = .str (jsTrim raw) ∧ emailTest (jsTrim raw) = true := by
  simp only [parseByType] at h
  split_ifs at h with hc
  · exact ⟨by injection h with h; exact h.symm, hc⟩

theorem coerceDefault_sound {rt : JsRuntime} {t : EnvBaseType} {d : Value} {v : Value}
    (h : coerceDefault rt t d = .ok (some v)) : primSatisfies rt t v := by
  cases t with
  | string =>
    cases d <;> simp only [coerceDefault] at h
    case str s =>
      show ∃ s, v = .str s
      exact ⟨s, by injection h with h1; injection h1 with h2; exact h2.symm⟩
    all_goals exact absurd h (by simp)
  | number =>
    cases d <;> simp only [coerceDefault] at h
    case num q =>
      show ∃ q, v = .num q
      exact ⟨q, by injection h with h1; injection h1 with h2; exact h2.symm⟩
    case str s =>
      show ∃ q, v = .num q
      obtain ⟨w, hw, hv⟩ := except_map_some_ok h
      obtain ⟨q, rfl⟩ := parse_number_shape hw
      exact ⟨q, by injection hv⟩
    all_goals exact absurd h (by simp)
  | boolean =>
    cases d <;> simp only [coerceDefault] at h
    case bool b =>
      show ∃ b, v = .bool b
      exact ⟨b, by injection h with h1; injection h1 with h2; exact h2.symm⟩
    case str s =>
      show ∃ b, v = .bool b
      obtain ⟨w, hw, hv⟩ := except_map_some_ok h
      obtain ⟨b, rfl⟩ := parse_boolean_shape hw
      exact ⟨b, by injection hv⟩
    all_goals exact absurd h (by simp)
  | json =>
    cases d <;> simp only [coerceDefault] at h
    case undefined => exact absurd h (by simp)
    all_goals exact trivial
  | url =>
    cases d <;> simp only [coerceDefault] at h
    case str s =>
      show ∃ s, v = .str s ∧ rt.urlOk s = true
      obtain ⟨w, hw, hv⟩ := except_map_some_ok h
      obtain ⟨rfl, hok⟩ := parse_url_shape hw
      exact ⟨s, by injection hv, hok⟩
    all_goals exact absurd h (by simp)
  | email =>
    cases d <;> simp only [coerceDefault] at h
    case str s =>
      show ∃ s, v = .str s ∧ emailTest s = true
      obtain ⟨w, hw, hv⟩ := except_map_some_ok h
      obtain ⟨rfl, hok⟩ := parse_email_shape hw
      exact ⟨jsTrim s, by injection hv, hok⟩
    all_goals exact absurd h (by simp)

theorem normalizePrim_inv {rt : JsRuntime} {o : List (String × Value)} {bt : EnvBaseType}
    {spec : NormalizedSpec} (h : normalizePrim rt o bt = .ok spec) :
    spec.kind = .prim bt ∧ spec.optional = truthy (getFieldD o "optional") ∧
      ∀ v, spec.defaultValue = some v → primSatisfies rt bt v := by
  unfold normalizePrim at h
  split at h
  · exact absurd h (by simp)
  · rename_i dflt heq
    obtain rfl : NormalizedSpec.mk (.prim bt) (truthy (getFieldD o "optional")) dflt = spec := by
      injection h
    refine ⟨rfl, rfl, fun v hv => ?_⟩
    subst hv
    split at heq
    · exact coerceDefault_sound heq
    · exact absurd heq (by simp)

theorem normalizeEnum_inv {o : List (String × Value)} {spec : NormalizedSpec}
    (h : normalizeEnum o = .ok spec) :
    ∃ values dflt, spec = ⟨.enum values, truthy (getFieldD o "optional"), dflt⟩ ∧
      values ≠ [] ∧
      (∃ items, getFieldD o "values" = .arr items ∧ allStrings items = some values) ∧
      ∀ v, dflt = some v → ∃ s, v = .str s ∧ values.contains s = true := by
  unfold normalizeEnum at h
  split at h
  case _ items harr =>
    split at h
    case _ values hall =>
      split at h
      · exact absurd h (by simp)
      case _ hne =>
        split at h
        · exact absurd h (by simp)
        case _ dflt heq =>
          obtain rfl : NormalizedSpec.mk (.enum values) (truthy (getFieldD o "optional")) dflt
              = spec := by injection h
          refine ⟨values, dflt, rfl, by simpa using hne, ⟨items, harr, hall⟩, fun v hv => ?_⟩
          subst hv
          split at heq
          · split at heq
            case _ d hd =>
              split at heq
              case _ hmem =>
                refine ⟨d, ?_, hmem⟩
                injection heq with h1
                injection h1 with h2
                exact h2.symm
              · exact absurd heq (by simp)
            · exact absurd heq (by simp)
          · exact absurd heq (by simp)
    · exact absurd h (by simp)
  · exact absurd h (by simp)

theorem normalizeRegex_inv {rt : JsRuntime} {o : List (String × Value)} {spec : NormalizedSpec}
    (h : normalizeRegex rt o = .ok spec) :
    ∃ re display dflt, spec = ⟨.regex re display, truthy (getFieldD o "optional"), dflt⟩ ∧
      ∀ v, dflt = some v → ∃ s, v = .str s ∧ re s = true := by
  unfold normalizeRegex at h
  split at h
  case _ p hp =>
    split at h
    · exact absurd h (by simp)
    · split at h
      · exact absurd h (by simp)
      case _ flagsOpt _ =>
        split at h
        · exact absurd h (by simp)
        case _ re hcomp =>
          split at h
          · exact absurd h (by simp)
          case _ dflt heq =>
            obtain rfl : NormalizedSpec.mk (.regex re ("/" ++ p ++ "/" ++ flagsOpt.getD ""))
                (truthy (getFieldD o "optional")) dflt = spec := by injection h
            refine ⟨re, _, dflt, rfl, fun v hv => ?_⟩
            subst hv
            split at heq
            · split at heq
              case _ d hd =>
                split at heq
                case _ hmatch =>
                  refine ⟨d, ?_, hmatch⟩
                  injection heq with h1
                  injection h1 with h2
                  exact h2.symm
                · exact absurd heq (by simp)
              · exact absurd heq (by simp)
            · exact absurd heq (by simp)
  · exact absurd h (by simp)

theorem allStrings_map {items : List Value} {values : List String}
    (h : allStrings items = some values) : items = values.map Value.str := by
  induction items generalizing values with
  | nil => simp [allStrings] at h; subst h; rfl
  | cons x xs ih =>
    cases x <;> simp [allStrings] at h
    case str s =>
      obtain ⟨l, hl, rfl⟩ := h
      simp [ih hl]

theorem jsTrim_all_ws {raw : String} (h : raw.toList.all isJsWS = true) :
    jsTrim raw = "" := by
  unfold jsTrim
  have hd : raw.toList.dropWhile isJsWS = [] :=
    List.dropWhile_eq_nil_iff.mpr (fun x hx => by
      have := List.all_eq_true.mp h x hx; simpa using this)
  rw [hd]
  rfl

theorem bool_lists_disjoint (v : String)
    (h : ["false", "0", "no", "n", "off"].contains v = true) :
    ["true", "1", "yes", "y", "on"].contains v = false := by
  have hv : v ∈ ["false", "0", "no", "n", "off"] := by simpa using h
  fin_cases hv <;> decide

/-! ## Claim theorems -/

/-- Claim C1: `validateAndParse` processes every schema key; a per-key
normalization or coercion failure never aborts the remaining keys, and
the call fails exactly when at least one issue was recorded, carrying
the full issue list with one issue per failing key in the schema's
insertion order (`issuesOf` is a `filterMap` over the schema list in
order). -/
theorem run_aggregates_all_issues_in_schema_order (rt : JsRuntime)
    (schema : List (String × Value)) (env : String → Option String) :
    validateAndParse rt schema env =
      if issuesOf rt schema env = [] then .ok (outputsOf rt schema env)
      else .error (issuesOf rt schema env) := by
  simp [validateAndParse, foldl_runStep]

/-- Claim C2: a `defaultValue` surviving normalization already satisfies
the spec's own validation rule, and a missing raw value resolves to that
default directly, with no re-validation at resolution time. -/
theorem normalized_defaults_prevalidated_and_resolved_directly
    (rt : JsRuntime) (key : String) (decl : Value) (spec : NormalizedSpec) (v : Value)
    (h : normalizeSpec rt decl = .ok spec) (hd : spec.defaultValue = some v) :
    defaultSatisfies rt spec v ∧ keyOutcome rt key decl none = .ok (some v) := by
  refine ⟨?_, by simp [keyOutcome, h, resolveMissing, hd]⟩
  cases decl
  case str s =>
    simp only [normalizeSpec] at h
    split at h
    · obtain rfl : NormalizedSpec.mk _ _ none = spec := by injection h
      simp at hd
    · exact absurd h (by simp)
  case obj o =>
    simp only [normalizeSpec] at h
    split at h
    case _ ts hts =>
      split at h
      case _ bt hbt =>
        obtain ⟨hk, hopt, hsound⟩ := normalizePrim_inv h
        simp only [defaultSatisfies, hk]
        exact hsound v hd
      case _ hbt =>
        split_ifs at h with h1 h2
        · obtain ⟨values, dflt, rfl, hne, _, hsound⟩ := normalizeEnum_inv h
          simp only [defaultSatisfies] at hd ⊢
          exact hsound v hd
        · obtain ⟨re, display, dflt, rfl, hsound⟩ := normalizeRegex_inv h
          simp only [defaultSatisfies] at hd ⊢
          exact hsound v hd
    case _ tv htv => exact absurd h (by simp)
  all_goals exact absurd h (by simp [normalizeSpec])

theorem normalized_defaults_prevalidated_witness :
    defaultSatisfies wRt ⟨.prim .number, false, some (.num 3000)⟩ (.num 3000) ∧
    keyOutcome wRt "PORT" (.obj [("type", .str "number"), ("default", .num 3000)]) none =
      .ok (some (.num 3000)) :=
  normalized_defaults_prevalidated_and_resolved_directly wRt "PORT"
    (.obj [("type", .str "number"), ("default", .num 3000)])
    ⟨.prim .number, false, some (.num 3000)⟩ (.num 3000) rfl rfl

/-- Claim C3: an empty-string raw value produces exactly the same
per-key outcome as an absent raw value, for every declaration. -/
theorem empty_string_raw_equivalent_to_absent (rt : JsRuntime) (key : String) (decl : Value) :
    keyOutcome rt key decl (some "") = keyOutcome rt key decl none := by
  simp only [keyOutcome]
  cases normalizeSpec rt decl <;> simp

/-- Claim C4: a missing raw value resolves by precedence — declared
default first, then `optional` yields the explicit-undefined entry with
no issue, otherwise a single `missing` issue with the exact message. -/
theorem missing_raw_resolution_precedence (rt : JsRuntime) (key : String) (decl : Value)
    (spec : NormalizedSpec) (h : normalizeSpec rt decl = .ok spec) :
    keyOutcome rt key decl none =
      match spec.defaultValue with
      | some v => .ok (some v)
      | none =>
        if spec.optional then .ok none
        else .error ⟨key, .missing, "missing required environment variable"⟩ := by
  simp only [keyOutcome, h]
  rfl

theorem missing_raw_resolution_precedence_witness :
    keyOutcome wRt "PORT" (.str "number") none =
      .error ⟨"PORT", .missing, "missing required environment variable"⟩ :=
  missing_raw_resolution_precedence wRt "PORT" (.str "number") ⟨.prim .number, false, none⟩ rfl

/-- Claim C5 (evaluation at the failing inputs): `normalizeSpec` in
`src/validators/primitives.ts` silently accepts a non-string
`description`, a non-string `example`, and a non-boolean `secret`,
returning a `NormalizedSpec` that carries no metadata at all — it never
validates these fields and has no `secret` output field, although the
repository's own tests, CLI and README require it to. -/
theorem normalizeSpec_ignores_metadata_fields (rt : JsRuntime) :
    normalizeSpec rt (.obj [("type", .str "string"), ("description", .num 123)]) =
        .ok ⟨.prim .string, false, none⟩ ∧
    normalizeSpec rt (.obj [("type", .str "string"), ("example", .num 5)]) =
        .ok ⟨.prim .string, false, none⟩ ∧
    normalizeSpec rt (.obj [("type", .str "string"), ("secret", .str "yes")]) =
        .ok ⟨.prim .string, false, none⟩ :=
  ⟨rfl, rfl, rfl⟩

/-- Claim C6: under any regex declaration that normalized successfully,
a present raw value is accepted exactly when the compiled pattern
matches it; otherwise the recorded issue is `invalid` and names the
display form. -/
theorem regex_present_raw_accepted_iff_matches (rt : JsRuntime) (key : String) (decl : Value)
    (re : String → Bool) (display : String) (optional : Bool) (dflt : Option Value)
    (raw : String) (hn : normalizeSpec rt decl = .ok ⟨.regex re display, optional, dflt⟩)
    (hraw : raw ≠ "") :
    keyOutcome rt key decl (some raw) =
      if re raw then .ok (some (.str raw))
      else .error ⟨key, .invalid, "does not match " ++ display⟩ := by
  simp only [keyOutcome, hn]
  rw [if_neg hraw]
  rfl

theorem regex_present_raw_accepted_iff_matches_witness :
    keyOutcome wRt "SLUG" (.obj [("type", .str "regex"), ("pattern", .str "abc")])
      (some "abc") = .ok (some (.str "abc")) :=
  regex_present_raw_accepted_iff_matches wRt "SLUG"
    (.obj [("type", .str "regex"), ("pattern", .str "abc")])
    (fun s => s == "abc") "/abc/" false none "abc" rfl (by decide)

/-- Claim C7 counterexample: an enum declaration with duplicate `values`
entries is accepted by `normalizeSpec` (the claim says it must fail). -/
theorem normalizeSpec_accepts_duplicate_enum_values :
    normalizeSpec wRt (.obj [("type", .str "enum"), ("values", .arr [.str "dev", .str "dev"])]) =
      .ok ⟨.enum ["dev", "dev"], false, none⟩ := rfl

/-- Claim C7 (amended): every enum declaration accepted by `normalizeSpec`
yields a non-empty list of strings taken verbatim from the declaration
(duplicates permitted), and `normalizeSpec` fails with the `values`
shape error when `values` is not an array of strings or is empty. -/
theorem enum_accepted_values_nonempty_strings (rt : JsRuntime) (o : List (String × Value))
    (htype : getFieldD o "type" = .str "enum") :
    (∀ spec, normalizeSpec rt (.obj o) = .ok spec →
      ∃ values dflt, spec = ⟨.enum values, truthy (getFieldD o "optional"), dflt⟩ ∧
        values ≠ [] ∧ getFieldD o "values" = .arr (values.map Value.str)) ∧
    (∀ items, getFieldD o "values" = .arr items →
      allStrings items = none ∨ allStrings items = some [] →
      normalizeSpec rt (.obj o) = .error enumValuesErr) := by
  have hdisp : normalizeSpec rt (.obj o) = normalizeEnum o := by
    simp only [normalizeSpec, htype]
    rfl
  constructor
  · intro spec h
    rw [hdisp] at h
    obtain ⟨values, dflt, rfl, hne, ⟨items, harr, hall⟩, _⟩ := normalizeEnum_inv h
    exact ⟨values, dflt, rfl, hne, by rw [harr, allStrings_map hall]⟩
  · intro items harr hbad
    rw [hdisp]
    unfold normalizeEnum
    rw [harr]
    rcases hbad with hb | hb <;> simp [hb]

theorem enum_accepted_values_nonempty_strings_witness :
    normalizeSpec wRt (.obj [("type", .str "enum"), ("values", .arr [.str "dev", .num 1])]) =
      .error enumValuesErr :=
  (enum_accepted_values_nonempty_strings wRt
    [("type", .str "enum"), ("values", .arr [.str "dev", .num 1])] rfl).2
    [.str "dev", .num 1] rfl (Or.inl rfl)

/-- Claim C8: boolean coercion matches the trimmed, lowercased raw
string against the true set and the false set, and anything else fails
with the message listing the eight canonical tokens
true/false/1/0/yes/no/on/off. -/
theorem boolean_coercion_token_sets (rt : JsRuntime) (raw : String) :
    (["true", "1", "yes", "y", "on"].contains (lowerStr (jsTrim raw)) = true →
      parseByType rt .boolean raw = .ok (.bool true)) ∧
    (["false", "0", "no", "n", "off"].contains (lowerStr (jsTrim raw)) = true →
      parseByType rt .boolean raw = .ok (.bool false)) ∧
    (["true", "1", "yes", "y", "on"].contains (lowerStr (jsTrim raw)) = false →
      ["false", "0", "no", "n", "off"].contains (lowerStr (jsTrim raw)) = false →
      parseByType rt .boolean raw =
        .error ("expected boolean (true/false/1/0/yes/no/on/off), got \"" ++ raw ++ "\"")) := by
  refine ⟨fun ht => ?_, fun hf => ?_, fun ht hf => ?_⟩
  · simp only [parseByType]
    rw [if_pos ht]
  · have hnt := bool_lists_disjoint _ hf
    simp only [parseByType]
    rw [if_neg (by rw [hnt]; simp), if_pos hf]
  · simp only [parseByType]
    rw [if_neg (by rw [ht]; simp), if_neg (by rw [hf]; simp)]

theorem boolean_coercion_token_sets_witness :
    parseByType wRt .boolean " YES " = .ok (.bool true) :=
  (boolean_coercion_token_sets wRt " YES ").1 (by decide)

/-- Claim C9: `normalizeSpec` is a pure, deterministic function of its
declaration — any two results of normalizing the same declaration with
the same runtime are equal. -/
theorem normalizeSpec_deterministic (rt : JsRuntime) (d : Value)
    (r₁ r₂ : Except String NormalizedSpec)
    (h₁ : normalizeSpec rt d = r₁) (h₂ : normalizeSpec rt d = r₂) : r₁ = r₂ := by
  rw [← h₁, ← h₂]

theorem normalizeSpec_deterministic_witness :
    normalizeSpec wRt (.str "number") = .ok ⟨.prim .number, false, none⟩ :=
  normalizeSpec_deterministic wRt (.str "number") _ _ rfl rfl

/-- Claim C10: under a number declaration, a non-empty all-whitespace
raw value is treated as present and resolves to the number 0 with no
issue, and a number declaration with default `""` normalizes to the
default 0. -/
theorem whitespace_number_raw_resolves_to_zero (rt : JsRuntime) (key : String) (decl : Value)
    (optional : Bool) (dflt : Option Value) (raw : String)
    (hn : normalizeSpec rt decl = .ok ⟨.prim .number, optional, dflt⟩)
    (hne : raw ≠ "") (hws : raw.toList.all isJsWS = true) :
    keyOutcome rt key decl (some raw) = .ok (some (.num 0)) ∧
    normalizeSpec rt (.obj [("type", .str "number"), ("default", .str "")]) =
      .ok ⟨.prim .number, false, some (.num 0)⟩ := by
  refine ⟨?_, rfl⟩
  simp only [keyOutcome, hn]
  rw [if_neg hne]
  simp only [resolvePresent, parseByType, jsTrim_all_ws hws]
  rfl

theorem whitespace_number_raw_resolves_to_zero_witness :
    keyOutcome wRt "PORT" (.str "number") (some " ") = .ok (some (.num 0)) ∧
    normalizeSpec wRt (.obj [("type", .str "number"), ("default", .str "")]) =
      .ok ⟨.prim .number, false, some (.num 0)⟩ :=
  whitespace_number_raw_resolves_to_zero wRt "PORT" (.str "number") false none " "
    rfl (by decide) (by decide)

end EnvTypedChecker
